import Mathlib

/-!
Verification of the event-to-chat-step translation and thread/pagination
adapter in `design_team/googleadk_database_layer.py`, together with the
`DB_URL` environment fallback shared with `design_team/app.py`.

The Python code is shallowly embedded: pydantic objects become structures
with `Option`-typed optional fields, Python truthiness is made explicit,
the mutable `steps` list with the `function_call_steps` dict of aliased
step objects becomes a list threaded through a fold together with an
association list from call identifier to the index of the aliased step,
and SQL queries over the `sessions` table become pure functions over a
list of rows.  Values that the Python code only ever passes through
`str(...)` (timestamps, argument maps, response payloads) are carried as
their already-stringified form; `str` applied to an optional of such a
value renders `None` when absent, as in Python.
-/

namespace DesignTeam

/-- Python truthiness of an `Optional[str]`: `None` and `""` are falsy. -/
def pyTruthyOptStr : Option String → Bool
  | none => false
  | some s => s ≠ ""

/-- Python `str(x)` applied to an optional payload carried in stringified
form: `str(None) = "None"`. -/
def strOfOptPayload : Option String → String
  | none => "None"
  | some s => s

/-- Python attribute access on an `Optional` value: raises
(`AttributeError`) when the value is `None`. -/
def ofOption : Option α → Except String α
  | some a => Except.ok a
  | none => Except.error "AttributeError: NoneType has no attribute"

/-- In-place update of the element at an index, modelling mutation of a
list entry aliased from the `function_call_steps` dict. -/
def listModify (f : α → α) : Nat → List α → List α
  | _, [] => []
  | 0, a :: l => f a :: l
  | n + 1, a :: l => a :: listModify f n l

/-- `google.genai.types.FunctionCall`: all fields optional; the argument
map is carried stringified. -/
structure FunctionCall where
  name : Option String
  args : Option String
  id : Option String
deriving Repr, DecidableEq

/-- `google.genai.types.FunctionResponse`: the response payload is
carried stringified. -/
structure FunctionResponse where
  id : Option String
  response : Option String
deriving Repr, DecidableEq

/-- `google.genai.types.Part`: the code probes `text`, `function_call`
and `function_response` by presence (non-exclusive). -/
structure Part where
  text : Option String
  function_call : Option FunctionCall
  function_response : Option FunctionResponse
deriving Repr, DecidableEq

/-- `google.genai.types.Content`: optional role, optional part list. -/
structure Content where
  role : Option String
  parts : Option (List Part)
deriving Repr, DecidableEq

/-- `google.adk.events.EventActions`: the code only tests the truthiness
of the `state_delta` dict, so it is carried as its entry list. -/
structure EventActions where
  state_delta : List (String × String)
deriving Repr, DecidableEq

/-- `google.adk.events.Event` as consumed by the adapter; `timestamp` is
carried already stringified (the code only uses `str(event.timestamp)`),
`custom_metadata` is an optional dict. -/
structure Event where
  id : String
  author : String
  timestamp : String
  error_code : Option String
  error_message : Option String
  content : Option Content
  actions : EventActions
  custom_metadata : Option (List (String × String))
deriving Repr, DecidableEq

/-- `chainlit.step.StepDict` with the fields this adapter populates. -/
structure StepDict where
  id : String
  threadId : String
  parentId : Option String
  name : String
  type : String
  input : String
  output : String
  metadata : List (String × String)
  createdAt : String
  showInput : Bool
  isError : Bool
  feedback : Option String
deriving Repr, DecidableEq

/-- `chainlit.element.ElementDict`; the adapter never constructs one. -/
structure ElementDict where
  id : String
deriving Repr, DecidableEq

/-- `google.adk.sessions.Session` as consumed by the assembler. -/
structure Session where
  id : String
  events : List Event
deriving Repr

/-- The error Step built when `event.error_code` is truthy
(`googleadk_database_layer.py` lines 291-304). -/
def errorStep (sessionId : String) (event : Event) : StepDict :=
  { id := event.id
    threadId := sessionId
    parentId := none
    name := event.author
    type := "system_message"
    input := ""
    output := "`" ++ strOfOptPayload event.error_code ++ "`]`: "
      ++ strOfOptPayload event.error_message
    metadata := event.custom_metadata.getD []
    createdAt := event.timestamp
    showInput := false
    isError := true
    feedback := none }

/-- The synthetic "state updated" Step built when `actions.state_delta`
is falsy (lines 311-324). -/
def stateUpdatedStep (sessionId : String) (event : Event) : StepDict :=
  { id := event.id ++ "_stupd"
    threadId := sessionId
    parentId := some event.id
    name := event.author
    type := "system_message"
    input := ""
    output := "*State updated.*"
    metadata := event.custom_metadata.getD []
    createdAt := event.timestamp
    showInput := false
    isError := false
    feedback := none }

/-- The tool Step built for a `function_call` Part (lines 329-342);
`part.function_call.name or "(unknown)"` treats `None` and `""` alike. -/
def callStep (sessionId : String) (event : Event) (pId : Nat)
    (fc : FunctionCall) : StepDict :=
  { id := event.id ++ "_" ++ toString pId
    threadId := sessionId
    parentId := some event.id
    name := match fc.name with
      | some n => if n = "" then "(unknown)" else n
      | none => "(unknown)"
    type := "tool"
    input := strOfOptPayload fc.args
    output := "(ERROR)"
    metadata := event.custom_metadata.getD []
    createdAt := event.timestamp
    showInput := true
    isError := false
    feedback := none }

/-- The trailing message Step built from the accumulated text buffer
(lines 362-375). -/
def textMessageStep (sessionId : String) (event : Event)
    (content : Content) (text : String) : StepDict :=
  { id := event.id
    threadId := sessionId
    parentId := none
    name := event.author
    type := if content.role == some "user" then "user_message"
      else "assistant_message"
    input := ""
    output := text
    metadata := event.custom_metadata.getD []
    createdAt := event.timestamp
    showInput := false
    isError := false
    feedback := none }

/-- `call_step.update({"output": str(...), "isError": False})`
(lines 349-352). -/
def applyResponse (fr : FunctionResponse) (s : StepDict) : StepDict :=
  { s with output := strOfOptPayload fr.response, isError := false }

/-- State threaded through the Part loop: the `steps` list, the
`function_call_steps` dict (call id, aliased as an index into `steps`),
the `event_text` buffer, and the `pId` counter. -/
structure PartState where
  steps : List StepDict
  lookup : List (Option String × Nat)
  text : String
  pId : Nat
deriving Repr

/-- `if part.function_call:` (lines 326-344): bump `pId`, append a tool
Step and record it in the same-event lookup (newest entry shadowing,
modelling dict overwrite). -/
def processCall (sessionId : String) (event : Event) (st : PartState)
    (p : Part) : PartState :=
  let pId := st.pId + 1
  match p.function_call with
  | some fc =>
      { steps := st.steps ++ [callStep sessionId event pId fc]
        lookup := (fc.id, st.steps.length) :: st.lookup
        text := st.text
        pId := pId }
  | none =>
      { steps := st.steps, lookup := st.lookup, text := st.text,
        pId := pId }

/-- `if part.function_response:` (lines 345-352): update the aliased
call Step in place when the response id is a key of the lookup. -/
def processResp (st : PartState) (p : Part) : PartState :=
  match p.function_response with
  | some fr =>
      match st.lookup.find? (fun kv => kv.1 == fr.id) with
      | some kv =>
          { st with steps := listModify (applyResponse fr) kv.2 st.steps }
      | none => st
  | none => st

/-- `if part.text:` (lines 359-360): append truthy text to the event
buffer. -/
def processText (st : PartState) (p : Part) : PartState :=
  match p.text with
  | some t => if t = "" then st else { st with text := st.text ++ t }
  | none => st

/-- One iteration of the Part loop (lines 325-360), in source order:
function_call, then function_response, then text. -/
def processPart (sessionId : String) (event : Event) (st : PartState)
    (p : Part) : PartState :=
  processText (processResp (processCall sessionId event st p) p) p

/-- Steps present before the Part loop: the synthetic "state updated"
Step when `actions.state_delta` is falsy (line 310). -/
def initSteps (sessionId : String) (event : Event) : List StepDict :=
  if event.actions.state_delta.isEmpty then [stateUpdatedStep sessionId event]
  else []

/-- Loop state at entry of the Part loop. -/
def initState (sessionId : String) (event : Event) : PartState :=
  { steps := initSteps sessionId event, lookup := [], text := "", pId := 0 }

/-- Python truthiness of `event.content.parts`: falsy when `None` or
the empty list. -/
def pyFalsyParts : Option (List Part) → Bool
  | none => true
  | some l => l.isEmpty

/-- Steps produced from a non-error event with truthy content and parts:
the pre-loop steps, the loop, then the trailing text Step when the
buffer is truthy (lines 310-376). -/
def partsResult (sessionId : String) (event : Event) (content : Content)
    (parts : List Part) : List StepDict :=
  let st := parts.foldl (processPart sessionId event) (initState sessionId event)
  if st.text = "" then st.steps
  else st.steps ++ [textMessageStep sessionId event content st.text]

/-- `_convert_event_to_chainlit` (lines 280-376).  The guards test
Python truthiness; the attribute accesses that follow a guard go through
`ofOption`, which raises exactly where Python would. -/
def convertEventToChainlit (sessionId : String) (event : Event) :
    Except String (List StepDict × List ElementDict) :=
  if pyTruthyOptStr event.error_code then
    Except.ok ([errorStep sessionId event], [])
  else if event.content.isNone then
    Except.ok ([], [])
  else
    (ofOption event.content).bind fun content =>
      if pyFalsyParts content.parts then
        Except.ok ([], [])
      else
        (ofOption content.parts).bind fun parts =>
          Except.ok (partsResult sessionId event content parts, [])

/-- The loop of `_convert_events_to_chainlit` (lines 381-384):
`steps.extend` / `elements.extend` per event, propagating any exception
from the per-event conversion. -/
def convertEventsGo (sessionId : String) :
    List Event → List StepDict × List ElementDict →
    Except String (List StepDict × List ElementDict)
  | [], acc => Except.ok acc
  | e :: rest, acc =>
      (convertEventToChainlit sessionId e).bind fun se =>
        convertEventsGo sessionId rest (acc.1 ++ se.1, acc.2 ++ se.2)

/-- `_convert_events_to_chainlit` (lines 378-385). -/
def convertEventsToChainlit (session : Session) :
    Except String (List StepDict × List ElementDict) :=
  convertEventsGo session.id session.events ([], [])

/-- The (steps, elements) pair an event normalizes to (total, justified
by `convert_total` below). -/
def eventPair (sessionId : String) (event : Event) :
    List StepDict × List ElementDict :=
  (convertEventToChainlit sessionId event).toOption.getD ([], [])

/-- Step list an event normalizes to. -/
def eventSteps (sessionId : String) (event : Event) : List StepDict :=
  (eventPair sessionId event).1

/-- Element list an event normalizes to. -/
def eventElements (sessionId : String) (event : Event) : List ElementDict :=
  (eventPair sessionId event).2

/-- A row of the `sessions` table: `id` is the primary key, `user_id`
and `state` are nullable columns, `create_time` is the creation
timestamp (totally ordered). -/
structure SessionRow where
  id : String
  user_id : Option String
  create_time : Nat
  state : Option String
deriving Repr, DecidableEq

/-- `chainlit.types.Pagination`. -/
structure Pagination where
  first : Nat
  cursor : Option String
deriving Repr, DecidableEq

/-- `chainlit.types.ThreadFilter`. -/
structure ThreadFilter where
  search : Option String
  userId : Option String
deriving Repr, DecidableEq

/-- `chainlit.types.ThreadDict` with the fields `list_threads`
populates; `metadata` carries the JSON text handed to `json.loads`
(decoding is abstracted: the session service always writes JSON). -/
structure ThreadDict where
  id : String
  createdAt : Nat
  name : String
  userId : Option String
  userIdentifier : Option String
  metadata : String
  steps : List StepDict
  elements : List ElementDict
  tags : List String
deriving Repr, DecidableEq

/-- `chainlit.types.PageInfo`. -/
structure PageInfo where
  hasNextPage : Bool
  startCursor : Option String
  endCursor : Option String
deriving Repr, DecidableEq

/-- `chainlit.types.PaginatedResponse` at `ThreadDict`. -/
structure PaginatedResponse where
  pageInfo : PageInfo
  data : List ThreadDict
deriving Repr, DecidableEq

/-- Failures surfaced by the query layer: `notFound` for the explicit
`ValueError(f"... not found")` raises, `storage` for database errors
re-raised from `execute_query`. -/
inductive DBFailure where
  | notFound (msg : String)
  | storage (msg : String)
deriving Repr, DecidableEq

/-- Insert a row into a list sorted by `create_time` descending, after
all rows with a greater-or-equal key (SQLite keeps the scan order of
rows that compare equal). -/
def insertDesc (r : SessionRow) : List SessionRow → List SessionRow
  | [] => [r]
  | y :: ys =>
      if y.create_time ≤ r.create_time then r :: y :: ys
      else y :: insertDesc r ys

/-- `ORDER BY s.create_time DESC` as a stable sort. -/
def sortDesc : List SessionRow → List SessionRow
  | [] => []
  | x :: xs => insertDesc x (sortDesc xs)

/-- The `ThreadDict` built from one fetched row (lines 208-218):
`userId` goes through `str(...) if truthy else None`, `userIdentifier`
is the raw column, `metadata` is `state or '{}'`. -/
def rowToThreadDict (row : SessionRow) : ThreadDict :=
  { id := row.id
    createdAt := row.create_time
    name := row.id
    userId := match row.user_id with
      | some u => if u = "" then none else some u
      | none => none
    userIdentifier := row.user_id
    metadata := row.state.getD "{}"
    steps := []
    elements := []
    tags := [] }

/-- The `AND s.user_id = ?` clause (lines 186-189), added only when the
filter value is truthy. -/
def filteredRows (filters : ThreadFilter) (table : List SessionRow) :
    List SessionRow :=
  match filters.userId with
  | some uid =>
      if uid = "" then table
      else table.filter (fun r => r.user_id == some uid)
  | none => table

/-- The cursor clause
`AND s.create_time < (SELECT create_time FROM sessions WHERE id = ?)`
(lines 191-194), added only when the cursor is truthy; when the scalar
subquery finds no row it yields NULL and the comparison excludes every
row. -/
def cursorRows (pag : Pagination) (filters : ThreadFilter)
    (table : List SessionRow) : List SessionRow :=
  match pag.cursor with
  | some c =>
      if c = "" then filteredRows filters table
      else
        match table.find? (fun r => r.id == c) with
        | some cr =>
            (filteredRows filters table).filter
              (fun r => r.create_time < cr.create_time)
        | none => []
  | none => filteredRows filters table

/-- The row set fetched by the `list_threads` query (lines 167-199):
the filter clauses, then `ORDER BY s.create_time DESC LIMIT first + 1`
(the extra row feeds the `has_next_page` computation). -/
def threadsQuery (pag : Pagination) (filters : ThreadFilter)
    (table : List SessionRow) : List SessionRow :=
  (sortDesc (cursorRows pag filters table)).take (pag.first + 1)

/-- `has_next_page = len(threads) > pagination.first` (line 202),
computed on the fetched row set before trimming. -/
def hasNext (pag : Pagination) (filters : ThreadFilter)
    (table : List SessionRow) : Bool :=
  decide (pag.first < (threadsQuery pag filters table).length)

/-- `threads = threads[:-1] if has_next_page else threads`
(lines 203-204): the extra fetched row is trimmed. -/
def trimmedRows (pag : Pagination) (filters : ThreadFilter)
    (table : List SessionRow) : List SessionRow :=
  if hasNext pag filters table then (threadsQuery pag filters table).dropLast
  else threadsQuery pag filters table

/-- `list_threads` (lines 164-228).  A truthy `search` filter adds an
`ILIKE` clause, which SQLite rejects with a syntax error, re-raised by
`execute_query` as a storage failure.  Otherwise: fetch `first + 1`
rows, trim the extra row when present, and report cursors from the
first and last returned rows. -/
def list_threads (pag : Pagination) (filters : ThreadFilter)
    (table : List SessionRow) : Except DBFailure PaginatedResponse :=
  if pyTruthyOptStr filters.search then
    Except.error (DBFailure.storage
      "sqlite3.OperationalError: near ILIKE: syntax error")
  else
    Except.ok
      { pageInfo :=
          { hasNextPage := hasNext pag filters table
            startCursor :=
              match (trimmedRows pag filters table).map rowToThreadDict with
              | [] => none
              | t :: _ => some t.id
            endCursor :=
              (((trimmedRows pag filters table).map
                rowToThreadDict).getLast?).map (fun t => t.id) }
        data := (trimmedRows pag filters table).map rowToThreadDict }

/-- `get_thread_author` (lines 144-153): first row matching
`WHERE id = thread_id`, a `ValueError(f"Thread ... not found")` when
there is none; `user_id` is returned as stored (nullable column). -/
def get_thread_author (thread_id : String) (table : List SessionRow) :
    Except DBFailure (Option String) :=
  match table.filter (fun r => r.id == thread_id) with
  | [] => Except.error (DBFailure.notFound
      ("Thread " ++ thread_id ++ " not found"))
  | r :: _ => Except.ok r.user_id

/-- The module-level `db_url` assignment
(`os.environ["DB_URL"] or "sqlite:///design_team_sessions.db"`, both in
`googleadk_database_layer.py` line 42 and `app.py` line 26): bracket
access raises `KeyError` when the variable is unset; a set-but-falsy
value (the empty string) is replaced by the default. -/
def resolveDbUrl (env : Option String) : Except String String :=
  match env with
  | none => Except.error "KeyError: DB_URL"
  | some s =>
      Except.ok (if s = "" then "sqlite:///design_team_sessions.db" else s)

/-! ### Helper lemmas -/

theorem listModify_length (f : α → α) (n : Nat) (l : List α) :
    (listModify f n l).length = l.length := by
  induction l generalizing n with
  | nil => cases n <;> rfl
  | cons a l ih =>
      cases n with
      | zero => rfl
      | succ m => simpa [listModify] using ih m

theorem listModify_head? (f : α → α) (n : Nat) (l : List α)
    (hn : 1 ≤ n) : (listModify f n l).head? = l.head? := by
  cases l with
  | nil => cases n <;> rfl
  | cons a l =>
      cases n with
      | zero => exact absurd hn (by simp)
      | succ m => rfl

theorem head?_append_left {l l' : List α} {a : α}
    (h : l.head? = some a) : (l ++ l').head? = some a := by
  cases l with
  | nil => simp at h
  | cons x xs => simpa using h

theorem processText_steps (st : PartState) (p : Part) :
    (processText st p).steps = st.steps := by
  unfold processText
  cases htx : p.text with
  | none => rfl
  | some t => by_cases ht : t = "" <;> simp [ht]

theorem processText_lookup (st : PartState) (p : Part) :
    (processText st p).lookup = st.lookup := by
  unfold processText
  cases htx : p.text with
  | none => rfl
  | some t => by_cases ht : t = "" <;> simp [ht]

theorem processText_pId (st : PartState) (p : Part) :
    (processText st p).pId = st.pId := by
  unfold processText
  cases htx : p.text with
  | none => rfl
  | some t => by_cases ht : t = "" <;> simp [ht]

theorem processResp_lookup (st : PartState) (p : Part) :
    (processResp st p).lookup = st.lookup := by
  unfold processResp
  cases hfr : p.function_response with
  | none => rfl
  | some fr =>
      cases hfind : st.lookup.find? (fun kv => kv.1 == fr.id) <;>
        simp [hfind]

theorem processResp_pId (st : PartState) (p : Part) :
    (processResp st p).pId = st.pId := by
  unfold processResp
  cases hfr : p.function_response with
  | none => rfl
  | some fr =>
      cases hfind : st.lookup.find? (fun kv => kv.1 == fr.id) <;>
        simp [hfind]

theorem processResp_text (st : PartState) (p : Part) :
    (processResp st p).text = st.text := by
  unfold processResp
  cases hfr : p.function_response with
  | none => rfl
  | some fr =>
      cases hfind : st.lookup.find? (fun kv => kv.1 == fr.id) <;>
        simp [hfind]

theorem processResp_steps_length (st : PartState) (p : Part) :
    (processResp st p).steps.length = st.steps.length := by
  unfold processResp
  cases hfr : p.function_response with
  | none => rfl
  | some fr =>
      cases hfind : st.lookup.find? (fun kv => kv.1 == fr.id) with
      | none => simp [hfind]
      | some kv => simp [hfind, listModify_length]

theorem processCall_pId (sid : String) (e : Event) (st : PartState)
    (p : Part) : (processCall sid e st p).pId = st.pId + 1 := by
  unfold processCall
  cases hfc : p.function_call <;> rfl

theorem processCall_steps_length (sid : String) (e : Event)
    (st : PartState) (p : Part) :
    (processCall sid e st p).steps.length =
      st.steps.length + (if p.function_call.isSome then 1 else 0) := by
  unfold processCall
  cases hfc : p.function_call <;> simp

theorem processPart_steps_length (sid : String) (e : Event)
    (st : PartState) (p : Part) :
    (processPart sid e st p).steps.length =
      st.steps.length + (if p.function_call.isSome then 1 else 0) := by
  unfold processPart
  rw [processText_steps, processResp_steps_length,
    processCall_steps_length]

theorem processPart_pId (sid : String) (e : Event) (st : PartState)
    (p : Part) : (processPart sid e st p).pId = st.pId + 1 := by
  unfold processPart
  rw [processText_pId, processResp_pId, processCall_pId]

theorem foldl_processPart_length (sid : String) (e : Event) :
    ∀ (ps : List Part) (st : PartState),
      ((ps.foldl (processPart sid e) st).steps).length =
        st.steps.length + ps.countP (fun p => p.function_call.isSome) := by
  intro ps
  induction ps with
  | nil => intro st; simp
  | cons p ps ih =>
      intro st
      simp only [List.foldl_cons, List.countP_cons, ih,
        processPart_steps_length]
      cases hfc : p.function_call with
      | none => simp [hfc]
      | some fc => simp [hfc]; omega

theorem foldl_processPart_pId (sid : String) (e : Event) :
    ∀ (ps : List Part) (st : PartState),
      (ps.foldl (processPart sid e) st).pId = st.pId + ps.length := by
  intro ps
  induction ps with
  | nil => intro st; simp
  | cons p ps ih =>
      intro st
      simp only [List.foldl_cons, ih, processPart_pId, List.length_cons]
      omega

/-- Invariant carried through the Part loop for the head-preservation
argument: the head of `steps` is fixed and every lookup index points
past it. -/
def HeadInv (s0 : StepDict) (st : PartState) : Prop :=
  st.steps.head? = some s0 ∧ ∀ kv ∈ st.lookup, 1 ≤ kv.2

theorem processCall_headInv (sid : String) (e : Event) (s0 : StepDict)
    (st : PartState) (p : Part) (h : HeadInv s0 st) :
    HeadInv s0 (processCall sid e st p) := by
  obtain ⟨hhead, hlk⟩ := h
  have hlen : 1 ≤ st.steps.length := by
    cases hl : st.steps with
    | nil => rw [hl] at hhead; simp at hhead
    | cons a l => simp [hl]
  unfold processCall
  cases hfc : p.function_call with
  | none => exact ⟨hhead, hlk⟩
  | some fc =>
      refine ⟨head?_append_left hhead, ?_⟩
      intro kv hkv
      rcases List.mem_cons.mp hkv with hkv | hkv
      · subst hkv; exact hlen
      · exact hlk kv hkv

theorem processResp_headInv (s0 : StepDict) (st : PartState) (p : Part)
    (h : HeadInv s0 st) : HeadInv s0 (processResp st p) := by
  obtain ⟨hhead, hlk⟩ := h
  unfold processResp
  cases hfr : p.function_response with
  | none => exact ⟨hhead, hlk⟩
  | some fr =>
      cases hfind : st.lookup.find? (fun kv => kv.1 == fr.id) with
      | none =>
          simp only [hfind]
          exact ⟨hhead, hlk⟩
      | some kv =>
          have hkv : kv ∈ st.lookup := List.mem_of_find?_eq_some hfind
          simp only [hfind]
          refine ⟨?_, hlk⟩
          rw [listModify_head? _ _ _ (hlk kv hkv)]
          exact hhead

theorem processText_headInv (s0 : StepDict) (st : PartState) (p : Part)
    (h : HeadInv s0 st) : HeadInv s0 (processText st p) := by
  refine ⟨?_, ?_⟩
  · rw [processText_steps]; exact h.1
  · rw [processText_lookup]; exact h.2

theorem processPart_headInv (sid : String) (e : Event) (s0 : StepDict)
    (st : PartState) (p : Part) (h : HeadInv s0 st) :
    HeadInv s0 (processPart sid e st p) :=
  processText_headInv s0 _ p
    (processResp_headInv s0 _ p (processCall_headInv sid e s0 st p h))

theorem foldl_processPart_headInv (sid : String) (e : Event)
    (s0 : StepDict) :
    ∀ (ps : List Part) (st : PartState), HeadInv s0 st →
      HeadInv s0 (ps.foldl (processPart sid e) st) := by
  intro ps
  induction ps with
  | nil => intro st h; exact h
  | cons p ps ih =>
      intro st h
      exact ih _ (processPart_headInv sid e s0 st p h)

theorem convert_exists (sid : String) (e : Event) :
    ∃ p, convertEventToChainlit sid e = Except.ok p := by
  by_cases herr : pyTruthyOptStr e.error_code
  · exact ⟨([errorStep sid e], []), by
      simp [convertEventToChainlit, herr]⟩
  · cases hc : e.content with
    | none => exact ⟨([], []), by simp [convertEventToChainlit, herr, hc]⟩
    | some c =>
        cases hps : c.parts with
        | none =>
            exact ⟨([], []), by
              simp [convertEventToChainlit, herr, hc, hps, pyFalsyParts,
                ofOption, Except.bind]⟩
        | some ps =>
            by_cases hne : ps.isEmpty
            · exact ⟨([], []), by
                simp [convertEventToChainlit, herr, hc, hps, pyFalsyParts,
                  hne, ofOption, Except.bind]⟩
            · exact ⟨(partsResult sid e c ps, []), by
                simp [convertEventToChainlit, herr, hc, hps, pyFalsyParts,
                  hne, ofOption, Except.bind]⟩

theorem convert_total (sid : String) (e : Event) :
    convertEventToChainlit sid e = Except.ok (eventPair sid e) := by
  obtain ⟨p, hp⟩ := convert_exists sid e
  rw [hp]
  simp [eventPair, hp, Except.toOption]

theorem convert_spec (sid : String) (e : Event) (c : Content)
    (ps : List Part) (herr : pyTruthyOptStr e.error_code = false)
    (hc : e.content = some c) (hps : c.parts = some ps) (hne : ps ≠ []) :
    convertEventToChainlit sid e =
      Except.ok (partsResult sid e c ps, []) := by
  have hf : ps.isEmpty = false := by
    cases ps with
    | nil => exact absurd rfl hne
    | cons a l => rfl
  simp [convertEventToChainlit, herr, hc, hps, pyFalsyParts, hf,
    ofOption, Except.bind]

theorem mem_insertDesc (r z : SessionRow) (l : List SessionRow) :
    z ∈ insertDesc r l → z = r ∨ z ∈ l := by
  induction l with
  | nil => intro h; simpa [insertDesc] using h
  | cons y ys ih =>
      intro h
      unfold insertDesc at h
      split at h
      · rcases List.mem_cons.mp h with h | h
        · exact Or.inl h
        · exact Or.inr h
      · rcases List.mem_cons.mp h with h | h
        · exact Or.inr (by simp [h])
        · rcases ih h with h | h
          · exact Or.inl h
          · exact Or.inr (List.mem_cons_of_mem _ h)

theorem sorted_insertDesc (r : SessionRow) (l : List SessionRow)
    (h : l.Pairwise (fun a b => b.create_time ≤ a.create_time)) :
    (insertDesc r l).Pairwise (fun a b => b.create_time ≤ a.create_time) := by
  induction l with
  | nil => simp [insertDesc]
  | cons y ys ih =>
      rw [List.pairwise_cons] at h
      obtain ⟨hy, hys⟩ := h
      unfold insertDesc
      split
      · rename_i hle
        rw [List.pairwise_cons]
        refine ⟨?_, List.pairwise_cons.mpr ⟨hy, hys⟩⟩
        intro z hz
        rcases List.mem_cons.mp hz with hz | hz
        · subst hz; exact hle
        · exact le_trans (hy z hz) hle
      · rename_i hgt
        rw [List.pairwise_cons]
        refine ⟨?_, ih hys⟩
        intro z hz
        rcases mem_insertDesc r z ys hz with hz | hz
        · subst hz; omega
        · exact hy z hz

theorem sorted_sortDesc (l : List SessionRow) :
    (sortDesc l).Pairwise (fun a b => b.create_time ≤ a.create_time) := by
  induction l with
  | nil => simp [sortDesc]
  | cons x xs ih => exact sorted_insertDesc x (sortDesc xs) ih

/-! ### Position-tracking machinery for the in-place update claims -/

theorem lt_of_getElem?_some {l : List α} {i : Nat} {a : α}
    (h : l[i]? = some a) : i < l.length := by
  by_contra hlt
  push_neg at hlt
  rw [List.getElem?_eq_none hlt] at h
  cases h

theorem getElem?_append_self (l : List α) (a : α) :
    (l ++ [a])[l.length]? = some a := by
  induction l with
  | nil => rfl
  | cons x xs ih => simp

theorem getElem?_append_lt {l l' : List α} {i : Nat}
    (h : i < l.length) : (l ++ l')[i]? = l[i]? := by
  induction l generalizing i with
  | nil => simp at h
  | cons x xs ih =>
      cases i with
      | zero => simp
      | succ j => simpa using ih (by simpa using h)

theorem listModify_getElem?_self (f : α → α) (n : Nat) (l : List α) :
    (listModify f n l)[n]? = (l[n]?).map f := by
  induction l generalizing n with
  | nil => cases n <;> rfl
  | cons a l ih =>
      cases n with
      | zero => simp [listModify]
      | succ m => simpa [listModify] using ih m

theorem listModify_getElem?_ne (f : α → α) {n m : Nat} (l : List α)
    (h : m ≠ n) : (listModify f n l)[m]? = l[m]? := by
  induction l generalizing n m with
  | nil => cases n <;> rfl
  | cons a l ih =>
      cases n with
      | zero =>
          cases m with
          | zero => exact absurd rfl h
          | succ k => simp [listModify]
      | succ j =>
          cases m with
          | zero => simp [listModify]
          | succ k =>
              simpa [listModify] using ih (fun hk => h (by rw [hk]))

/-- Every index recorded in the lookup points into `steps`. -/
def LookupBound (st : PartState) : Prop :=
  ∀ kv ∈ st.lookup, kv.2 < st.steps.length

theorem processCall_lookupBound (sid : String) (e : Event)
    (st : PartState) (p : Part) (h : LookupBound st) :
    LookupBound (processCall sid e st p) := by
  unfold processCall
  cases hfc : p.function_call with
  | none => exact h
  | some fc =>
      intro kv hkv
      rcases List.mem_cons.mp hkv with hkv | hkv
      · subst hkv; simp
      · have := h kv hkv
        simp only [List.length_append, List.length_cons,
          List.length_nil]
        omega

theorem processResp_lookupBound (st : PartState) (p : Part)
    (h : LookupBound st) : LookupBound (processResp st p) := by
  intro kv hkv
  rw [processResp_lookup] at hkv
  have h1 := h kv hkv
  have h2 := processResp_steps_length st p
  omega

theorem processText_lookupBound (st : PartState) (p : Part)
    (h : LookupBound st) : LookupBound (processText st p) := by
  intro kv hkv
  rw [processText_lookup] at hkv
  rw [processText_steps]
  exact h kv hkv

theorem processPart_lookupBound (sid : String) (e : Event)
    (st : PartState) (p : Part) (h : LookupBound st) :
    LookupBound (processPart sid e st p) :=
  processText_lookupBound _ _
    (processResp_lookupBound _ _ (processCall_lookupBound sid e st p h))

theorem foldl_lookupBound (sid : String) (e : Event) :
    ∀ (ps : List Part) (st : PartState), LookupBound st →
      LookupBound (ps.foldl (processPart sid e) st) := by
  intro ps
  induction ps with
  | nil => intro st h; exact h
  | cons p ps ih =>
      intro st h
      exact ih _ (processPart_lookupBound sid e st p h)

/-- Tracking invariant for the call Step recorded at index `idx` under
call id `k`: the Step at `idx` differs from `base` at most in
`output`/`isError` (the fields touched by in-place response updates),
the topmost lookup entry whose key matches `k` is still `(k, idx)`, and
no entry with a different key aliases `idx`. -/
def TrackInv (k : Option String) (idx : Nat) (base : StepDict)
    (st : PartState) : Prop :=
  (∃ out err, st.steps[idx]? =
      some { base with output := out, isError := err }) ∧
  st.lookup.find? (fun kv => kv.1 == k) = some (k, idx) ∧
  (∀ kv ∈ st.lookup, kv.2 = idx → kv.1 = k)

/-- Exact variant of `TrackInv`: the Step at `idx` is untouched. -/
def ExactInv (k : Option String) (idx : Nat) (base : StepDict)
    (st : PartState) : Prop :=
  st.steps[idx]? = some base ∧
  st.lookup.find? (fun kv => kv.1 == k) = some (k, idx) ∧
  (∀ kv ∈ st.lookup, kv.2 = idx → kv.1 = k)

/-- The Step at `idx` is frozen at `s`; sound against responses whose
id differs from `k` because no entry with another key aliases `idx`. -/
def FrozenW (k : Option String) (idx : Nat) (s : StepDict)
    (st : PartState) : Prop :=
  st.steps[idx]? = some s ∧
  (∀ kv ∈ st.lookup, kv.2 = idx → kv.1 = k)

/-- Strong frozen invariant: additionally the topmost lookup entry for
`k` no longer names `idx` (a newer call with the same id shadows it),
so no response whatsoever can reach index `idx`. -/
def FrozenS (k : Option String) (idx : Nat) (s : StepDict)
    (st : PartState) : Prop :=
  FrozenW k idx s st ∧
  (∀ kv, st.lookup.find? (fun kv => kv.1 == k) = some kv →
    kv.2 ≠ idx)

theorem processCall_trackInv (sid : String) (e : Event)
    (st : PartState) (p : Part) {k : Option String} {idx : Nat}
    {base : StepDict}
    (hcall : ∀ fc', p.function_call = some fc' → fc'.id ≠ k)
    (h : TrackInv k idx base st) :
    TrackInv k idx base (processCall sid e st p) := by
  obtain ⟨⟨out, err, hstep⟩, hfind, hK⟩ := h
  have hidx : idx < st.steps.length := lt_of_getElem?_some hstep
  unfold processCall
  cases hfc : p.function_call with
  | none => exact ⟨⟨out, err, hstep⟩, hfind, hK⟩
  | some fc =>
      have hne : fc.id ≠ k := hcall fc hfc
      refine ⟨⟨out, err, ?_⟩, ?_, ?_⟩
      · rw [getElem?_append_lt hidx]; exact hstep
      · rw [List.find?_cons_of_neg]
        · exact hfind
        · simp [hne]
      · intro kv hkv hkvidx
        rcases List.mem_cons.mp hkv with hkv | hkv
        · exfalso
          subst hkv
          simp only at hkvidx
          omega
        · exact hK kv hkv hkvidx

theorem processResp_trackInv (st : PartState) (p : Part)
    {k : Option String} {idx : Nat} {base : StepDict}
    (h : TrackInv k idx base st) :
    TrackInv k idx base (processResp st p) := by
  obtain ⟨⟨out, err, hstep⟩, hfind, hK⟩ := h
  unfold processResp
  cases hfr : p.function_response with
  | none => exact ⟨⟨out, err, hstep⟩, hfind, hK⟩
  | some fr =>
      cases hfd : st.lookup.find? (fun kv => kv.1 == fr.id) with
      | none =>
          simp only [hfd]
          exact ⟨⟨out, err, hstep⟩, hfind, hK⟩
      | some kv =>
          simp only [hfd]
          refine ⟨?_, hfind, hK⟩
          by_cases hkv : kv.2 = idx
          · refine ⟨strOfOptPayload fr.response, false, ?_⟩
            rw [hkv, listModify_getElem?_self, hstep]
            rfl
          · refine ⟨out, err, ?_⟩
            rw [listModify_getElem?_ne _ _ (fun hh => hkv hh.symm)]
            exact hstep

theorem processText_trackInv (st : PartState) (p : Part)
    {k : Option String} {idx : Nat} {base : StepDict}
    (h : TrackInv k idx base st) :
    TrackInv k idx base (processText st p) := by
  obtain ⟨h1, h2, h3⟩ := h
  refine ⟨?_, ?_, ?_⟩
  · rw [processText_steps]; exact h1
  · rw [processText_lookup]; exact h2
  · rw [processText_lookup]; exact h3

theorem processPart_trackInv (sid : String) (e : Event)
    (st : PartState) (p : Part) {k : Option String} {idx : Nat}
    {base : StepDict}
    (hcall : ∀ fc', p.function_call = some fc' → fc'.id ≠ k)
    (h : TrackInv k idx base st) :
    TrackInv k idx base (processPart sid e st p) :=
  processText_trackInv _ _
    (processResp_trackInv _ _ (processCall_trackInv sid e st p hcall h))

theorem foldl_trackInv (sid : String) (e : Event) {k : Option String}
    {idx : Nat} {base : StepDict} :
    ∀ (ps : List Part) (st : PartState),
      (∀ q ∈ ps, ∀ fc', q.function_call = some fc' → fc'.id ≠ k) →
      TrackInv k idx base st →
      TrackInv k idx base (ps.foldl (processPart sid e) st) := by
  intro ps
  induction ps with
  | nil => intro st _ h; exact h
  | cons p ps ih =>
      intro st hps h
      exact ih _ (fun q hq => hps q (List.mem_cons_of_mem _ hq))
        (processPart_trackInv sid e st p
          (hps p (List.mem_cons_self _ _)) h)

theorem processCall_exactInv (sid : String) (e : Event)
    (st : PartState) (p : Part) {k : Option String} {idx : Nat}
    {base : StepDict}
    (hcall : ∀ fc', p.function_call = some fc' → fc'.id ≠ k)
    (h : ExactInv k idx base st) :
    ExactInv k idx base (processCall sid e st p) := by
  obtain ⟨hstep, hfind, hK⟩ := h
  have hidx : idx < st.steps.length := lt_of_getElem?_some hstep
  unfold processCall
  cases hfc : p.function_call with
  | none => exact ⟨hstep, hfind, hK⟩
  | some fc =>
      have hne : fc.id ≠ k := hcall fc hfc
      refine ⟨?_, ?_, ?_⟩
      · rw [getElem?_append_lt hidx]; exact hstep
      · rw [List.find?_cons_of_neg]
        · exact hfind
        · simp [hne]
      · intro kv hkv hkvidx
        rcases List.mem_cons.mp hkv with hkv | hkv
        · exfalso
          subst hkv
          simp only at hkvidx
          omega
        · exact hK kv hkv hkvidx

theorem processResp_exactInv (st : PartState) (p : Part)
    {k : Option String} {idx : Nat} {base : StepDict}
    (hresp : ∀ fr', p.function_response = some fr' → fr'.id ≠ k)
    (h : ExactInv k idx base st) :
    ExactInv k idx base (processResp st p) := by
  obtain ⟨hstep, hfind, hK⟩ := h
  unfold processResp
  cases hfr : p.function_response with
  | none => exact ⟨hstep, hfind, hK⟩
  | some fr =>
      cases hfd : st.lookup.find? (fun kv => kv.1 == fr.id) with
      | none =>
          simp only [hfd]
          exact ⟨hstep, hfind, hK⟩
      | some kv =>
          simp only [hfd]
          have hkv1 : kv.1 = fr.id := by
            have := List.find?_some hfd
            simpa using this
          have hkvne : kv.2 ≠ idx := by
            intro hkvidx
            have := hK kv (List.mem_of_find?_eq_some hfd) hkvidx
            exact hresp fr hfr (by rw [← hkv1, this])
          refine ⟨?_, hfind, hK⟩
          rw [listModify_getElem?_ne _ _ (fun hh => hkvne hh.symm)]
          exact hstep

theorem processText_exactInv (st : PartState) (p : Part)
    {k : Option String} {idx : Nat} {base : StepDict}
    (h : ExactInv k idx base st) :
    ExactInv k idx base (processText st p) := by
  obtain ⟨h1, h2, h3⟩ := h
  refine ⟨?_, ?_, ?_⟩
  · rw [processText_steps]; exact h1
  · rw [processText_lookup]; exact h2
  · rw [processText_lookup]; exact h3

theorem processPart_exactInv (sid : String) (e : Event)
    (st : PartState) (p : Part) {k : Option String} {idx : Nat}
    {base : StepDict}
    (hcall : ∀ fc', p.function_call = some fc' → fc'.id ≠ k)
    (hresp : ∀ fr', p.function_response = some fr' → fr'.id ≠ k)
    (h : ExactInv k idx base st) :
    ExactInv k idx base (processPart sid e st p) :=
  processText_exactInv _ _
    (processResp_exactInv _ _ hresp
      (processCall_exactInv sid e st p hcall h))

theorem foldl_exactInv (sid : String) (e : Event) {k : Option String}
    {idx : Nat} {base : StepDict} :
    ∀ (ps : List Part) (st : PartState),
      (∀ q ∈ ps, ∀ fc', q.function_call = some fc' → fc'.id ≠ k) →
      (∀ q ∈ ps, ∀ fr', q.function_response = some fr' → fr'.id ≠ k) →
      ExactInv k idx base st →
      ExactInv k idx base (ps.foldl (processPart sid e) st) := by
  intro ps
  induction ps with
  | nil => intro st _ _ h; exact h
  | cons p ps ih =>
      intro st hc hr h
      exact ih _ (fun q hq => hc q (List.mem_cons_of_mem _ hq))
        (fun q hq => hr q (List.mem_cons_of_mem _ hq))
        (processPart_exactInv sid e st p
          (hc p (List.mem_cons_self _ _))
          (hr p (List.mem_cons_self _ _)) h)

theorem processCall_frozenW (sid : String) (e : Event)
    (st : PartState) (p : Part) {k : Option String} {idx : Nat}
    {s : StepDict} (h : FrozenW k idx s st) :
    FrozenW k idx s (processCall sid e st p) := by
  obtain ⟨hstep, hK⟩ := h
  have hidx : idx < st.steps.length := lt_of_getElem?_some hstep
  unfold processCall
  cases hfc : p.function_call with
  | none => exact ⟨hstep, hK⟩
  | some fc =>
      refine ⟨?_, ?_⟩
      · rw [getElem?_append_lt hidx]; exact hstep
      · intro kv hkv hkvidx
        rcases List.mem_cons.mp hkv with hkv | hkv
        · exfalso
          subst hkv
          simp only at hkvidx
          omega
        · exact hK kv hkv hkvidx

theorem processResp_frozenW (st : PartState) (p : Part)
    {k : Option String} {idx : Nat} {s : StepDict}
    (hresp : ∀ fr', p.function_response = some fr' → fr'.id ≠ k)
    (h : FrozenW k idx s st) : FrozenW k idx s (processResp st p) := by
  obtain ⟨hstep, hK⟩ := h
  unfold processResp
  cases hfr : p.function_response with
  | none => exact ⟨hstep, hK⟩
  | some fr =>
      cases hfd : st.lookup.find? (fun kv => kv.1 == fr.id) with
      | none =>
          simp only [hfd]
          exact ⟨hstep, hK⟩
      | some kv =>
          simp only [hfd]
          have hkv1 : kv.1 = fr.id := by
            have := List.find?_some hfd
            simpa using this
          have hkvne : kv.2 ≠ idx := by
            intro hkvidx
            have := hK kv (List.mem_of_find?_eq_some hfd) hkvidx
            exact hresp fr hfr (by rw [← hkv1, this])
          refine ⟨?_, hK⟩
          rw [listModify_getElem?_ne _ _ (fun hh => hkvne hh.symm)]
          exact hstep

theorem processText_frozenW (st : PartState) (p : Part)
    {k : Option String} {idx : Nat} {s : StepDict}
    (h : FrozenW k idx s st) : FrozenW k idx s (processText st p) := by
  obtain ⟨h1, h2⟩ := h
  refine ⟨?_, ?_⟩
  · rw [processText_steps]; exact h1
  · rw [processText_lookup]; exact h2

theorem processPart_frozenW (sid : String) (e : Event)
    (st : PartState) (p : Part) {k : Option String} {idx : Nat}
    {s : StepDict}
    (hresp : ∀ fr', p.function_response = some fr' → fr'.id ≠ k)
    (h : FrozenW k idx s st) :
    FrozenW k idx s (processPart sid e st p) :=
  processText_frozenW _ _
    (processResp_frozenW _ _ hresp (processCall_frozenW sid e st p h))

theorem foldl_frozenW (sid : String) (e : Event) {k : Option String}
    {idx : Nat} {s : StepDict} :
    ∀ (ps : List Part) (st : PartState),
      (∀ q ∈ ps, ∀ fr', q.function_response = some fr' → fr'.id ≠ k) →
      FrozenW k idx s st →
      FrozenW k idx s (ps.foldl (processPart sid e) st) := by
  intro ps
  induction ps with
  | nil => intro st _ h; exact h
  | cons p ps ih =>
      intro st hr h
      exact ih _ (fun q hq => hr q (List.mem_cons_of_mem _ hq))
        (processPart_frozenW sid e st p
          (hr p (List.mem_cons_self _ _)) h)

theorem processCall_frozenS (sid : String) (e : Event)
    (st : PartState) (p : Part) {k : Option String} {idx : Nat}
    {s : StepDict} (h : FrozenS k idx s st) :
    FrozenS k idx s (processCall sid e st p) := by
  obtain ⟨⟨hstep, hK⟩, hS⟩ := h
  have hidx : idx < st.steps.length := lt_of_getElem?_some hstep
  refine ⟨processCall_frozenW sid e st p ⟨hstep, hK⟩, ?_⟩
  unfold processCall
  cases hfc : p.function_call with
  | none => exact hS
  | some fc =>
      intro kv hfd
      by_cases hbk : (fc.id == k) = true
      · rw [List.find?_cons_of_pos _ (by simpa using hbk)] at hfd
        injection hfd with hfd
        rw [← hfd]
        simp only
        omega
      · rw [List.find?_cons_of_neg _ (by simpa using hbk)] at hfd
        exact hS kv hfd

theorem processResp_frozenS (st : PartState) (p : Part)
    {k : Option String} {idx : Nat} {s : StepDict}
    (h : FrozenS k idx s st) : FrozenS k idx s (processResp st p) := by
  obtain ⟨⟨hstep, hK⟩, hS⟩ := h
  unfold processResp
  cases hfr : p.function_response with
  | none => exact ⟨⟨hstep, hK⟩, hS⟩
  | some fr =>
      cases hfd : st.lookup.find? (fun kv => kv.1 == fr.id) with
      | none =>
          simp only [hfd]
          exact ⟨⟨hstep, hK⟩, hS⟩
      | some kv =>
          simp only [hfd]
          have hkv1 : kv.1 = fr.id := by
            have := List.find?_some hfd
            simpa using this
          have hkvne : kv.2 ≠ idx := by
            by_cases hfk : fr.id = k
            · exact hS kv (by rw [← hfk]; exact hfd)
            · intro hkvidx
              have := hK kv (List.mem_of_find?_eq_some hfd) hkvidx
              exact hfk (by rw [← hkv1, this])
          refine ⟨⟨?_, hK⟩, hS⟩
          rw [listModify_getElem?_ne _ _ (fun hh => hkvne hh.symm)]
          exact hstep

theorem processText_frozenS (st : PartState) (p : Part)
    {k : Option String} {idx : Nat} {s : StepDict}
    (h : FrozenS k idx s st) : FrozenS k idx s (processText st p) := by
  obtain ⟨hW, hS⟩ := h
  refine ⟨processText_frozenW st p hW, ?_⟩
  rw [processText_lookup]
  exact hS

theorem processPart_frozenS (sid : String) (e : Event)
    (st : PartState) (p : Part) {k : Option String} {idx : Nat}
    {s : StepDict} (h : FrozenS k idx s st) :
    FrozenS k idx s (processPart sid e st p) :=
  processText_frozenS _ _
    (processResp_frozenS _ _ (processCall_frozenS sid e st p h))

theorem foldl_frozenS (sid : String) (e : Event) {k : Option String}
    {idx : Nat} {s : StepDict} :
    ∀ (ps : List Part) (st : PartState), FrozenS k idx s st →
      FrozenS k idx s (ps.foldl (processPart sid e) st) := by
  intro ps
  induction ps with
  | nil => intro st h; exact h
  | cons p ps ih =>
      intro st h
      exact ih _ (processPart_frozenS sid e st p h)

/-- Processing a `function_call` Part records its call Step at the end
of the current `steps` list and makes it the topmost lookup entry for
its id. -/
theorem trackInv_establish (sid : String) (e : Event) (st : PartState)
    (p : Part) (fc : FunctionCall) (hb : LookupBound st)
    (hpc : p.function_call = some fc) :
    TrackInv fc.id st.steps.length (callStep sid e (st.pId + 1) fc)
      (processPart sid e st p) := by
  have h1 : TrackInv fc.id st.steps.length
      (callStep sid e (st.pId + 1) fc) (processCall sid e st p) := by
    unfold processCall
    simp only [hpc]
    refine ⟨⟨"(ERROR)", false, ?_⟩, ?_, ?_⟩
    · rw [getElem?_append_self]
      rfl
    · rw [List.find?_cons_of_pos _ (by simp)]
    · intro kv hkv hkvidx
      rcases List.mem_cons.mp hkv with hkv | hkv
      · rw [hkv]
      · exfalso
        have := hb kv hkv
        omega
  exact processText_trackInv _ _ (processResp_trackInv _ _ h1)

/-- Exact variant of `trackInv_establish`, for a part whose own
response (if any) has a different id. -/
theorem exactInv_establish (sid : String) (e : Event) (st : PartState)
    (p : Part) (fc : FunctionCall) (hb : LookupBound st)
    (hpc : p.function_call = some fc)
    (hresp : ∀ fr', p.function_response = some fr' → fr'.id ≠ fc.id) :
    ExactInv fc.id st.steps.length (callStep sid e (st.pId + 1) fc)
      (processPart sid e st p) := by
  have h1 : ExactInv fc.id st.steps.length
      (callStep sid e (st.pId + 1) fc) (processCall sid e st p) := by
    unfold processCall
    simp only [hpc]
    refine ⟨?_, ?_, ?_⟩
    · rw [getElem?_append_self]
    · rw [List.find?_cons_of_pos _ (by simp)]
    · intro kv hkv hkvidx
      rcases List.mem_cons.mp hkv with hkv | hkv
      · rw [hkv]
      · exfalso
        have := hb kv hkv
        omega
  exact processText_exactInv _ _ (processResp_exactInv _ _ hresp h1)

/-- Processing a `function_response` Part whose id matches the tracked
call updates the tracked Step in place: output becomes the stringified
payload and the error flag is cleared, the other fields persisting from
the original call Step. -/
theorem respUpdate (sid : String) (e : Event) (st : PartState)
    (p : Part) {k : Option String} {idx : Nat} {base : StepDict}
    {fr : FunctionResponse} (h : TrackInv k idx base st)
    (hpr : p.function_response = some fr) (hid : fr.id = k)
    (hcall : ∀ fc', p.function_call = some fc' → fc'.id ≠ k) :
    FrozenW k idx
      { base with
        output := strOfOptPayload fr.response,
        isError := false }
      (processPart sid e st p) := by
  have h1 : TrackInv k idx base (processCall sid e st p) :=
    processCall_trackInv sid e st p hcall h
  obtain ⟨⟨out, err, hstep⟩, hfind, hK⟩ := h1
  have h2 : FrozenW k idx
      { base with
        output := strOfOptPayload fr.response,
        isError := false }
      (processResp (processCall sid e st p) p) := by
    unfold processResp
    simp only [hpr, hid, hfind]
    refine ⟨?_, hK⟩
    rw [listModify_getElem?_self, hstep]
    rfl
  exact processText_frozenW _ _ h2

/-- Processing a later `function_call` Part with the same id shadows
the tracked entry: the old Step is frozen for good. -/
theorem frozenS_establish (sid : String) (e : Event) (st : PartState)
    (p : Part) (fc2 : FunctionCall) {k : Option String} {idx : Nat}
    {base : StepDict} (h : ExactInv k idx base st)
    (hpc : p.function_call = some fc2) (hk : fc2.id = k) :
    FrozenS k idx base (processPart sid e st p) := by
  obtain ⟨hstep, hfind, hK⟩ := h
  have hidx : idx < st.steps.length := lt_of_getElem?_some hstep
  have h1 : FrozenS k idx base (processCall sid e st p) := by
    unfold processCall
    simp only [hpc]
    refine ⟨⟨?_, ?_⟩, ?_⟩
    · rw [getElem?_append_lt hidx]; exact hstep
    · intro kv hkv hkvidx
      rcases List.mem_cons.mp hkv with hkv | hkv
      · exfalso
        subst hkv
        simp only at hkvidx
        omega
      · exact hK kv hkv hkvidx
    · intro kv hfd
      rw [List.find?_cons_of_pos _ (by simp [hk])] at hfd
      injection hfd with hfd
      rw [← hfd]
      simp only
      omega
  exact processText_frozenS _ _ (processResp_frozenS _ _ h1)

/-- A Step position inside the loop result survives into the final
step list of `partsResult`. -/
theorem partsResult_getElem? (sid : String) (e : Event) (c : Content)
    (ps : List Part) (idx : Nat) (s : StepDict)
    (h : (ps.foldl (processPart sid e) (initState sid e)).steps[idx]? =
      some s) : (partsResult sid e c ps)[idx]? = some s := by
  unfold partsResult
  by_cases htext :
      (ps.foldl (processPart sid e) (initState sid e)).text = ""
  · simp only [htext, if_pos]
    exact h
  · rw [if_neg htext]
    rw [getElem?_append_lt (lt_of_getElem?_some h)]
    exact h

/-! ### Claims -/

/-- Claim C1: for every event — any combination of optional error code,
optional content with any Part list, any action set, any metadata — the
Event Normalizer returns a (steps, elements) pair and never fails:
every attribute access modelled as fallible is covered by a guard. -/
theorem claim_c1_normalize_total (sid : String) (e : Event) :
    ∃ steps elements,
      convertEventToChainlit sid e = Except.ok (steps, elements) := by
  obtain ⟨⟨s, el⟩, h⟩ := convert_exists sid e
  exact ⟨s, el, h⟩

/-- Counterexample to claim C2: an event whose `error_code` is set to
the empty string is treated as error-free (Python truthiness), so the
normalizer produces an ordinary `user_message` Step with
`isError = false` instead of the single error Step the claim requires. -/
def c2Event : Event :=
  { id := "e", author := "user", timestamp := "1.0",
    error_code := some "", error_message := some "m",
    content := some
      { role := some "user",
        parts := some
          [{ text := some "hi", function_call := none,
             function_response := none }] },
    actions := { state_delta := [("k", "v")] },
    custom_metadata := none }

/-- Claim C2 fails as stated: `c2Event.error_code` is set (to `""`),
yet the result is one non-error `user_message` Step, not the
`system_message` error Step. -/
theorem claim_c2_counterexample :
    c2Event.error_code = some "" ∧
    convertEventToChainlit "t" c2Event =
      Except.ok
        ([{ id := "e", threadId := "t", parentId := none,
            name := "user", type := "user_message", input := "",
            output := "hi", metadata := [], createdAt := "1.0",
            showInput := false, isError := false, feedback := none }],
         []) :=
  ⟨rfl, rfl⟩

/-- Claim C2 (amended: `error_code` set to a non-empty string): the
normalizer returns exactly one Step — kind `system_message`,
`isError = true`, no parent, output formatted from the error code and
message — and an empty element list, regardless of content, parts or
actions. -/
theorem claim_c2_error_event (sid : String) (e : Event) (s : String)
    (hs : e.error_code = some s) (hne : s ≠ "") :
    convertEventToChainlit sid e =
      Except.ok
        ([{ id := e.id, threadId := sid, parentId := none,
            name := e.author, type := "system_message", input := "",
            output := "`" ++ s ++ "`]`: "
              ++ strOfOptPayload e.error_message,
            metadata := e.custom_metadata.getD [],
            createdAt := e.timestamp,
            showInput := false, isError := true, feedback := none }],
         []) := by
  have herr : pyTruthyOptStr e.error_code = true := by
    simp [pyTruthyOptStr, hs, hne]
  simp only [convertEventToChainlit, herr, if_true]
  simp [errorStep, hs, strOfOptPayload]

/-- Witness for C2 at a concrete error event. -/
theorem claim_c2_witness :
    convertEventToChainlit "t"
      { id := "e", author := "bot", timestamp := "1.0",
        error_code := some "ERR", error_message := some "m",
        content := none, actions := { state_delta := [] },
        custom_metadata := none } =
      Except.ok
        ([{ id := "e", threadId := "t", parentId := none,
            name := "bot", type := "system_message", input := "",
            output := "`" ++ "ERR" ++ "`]`: "
              ++ strOfOptPayload (some "m"),
            metadata := [], createdAt := "1.0",
            showInput := false, isError := true, feedback := none }],
         []) :=
  claim_c2_error_event "t" _ "ERR" rfl (by decide)

/-- Claim C5: the Thread Assembler returns exactly the concatenation of
the per-event normalizations, for steps and for elements, in stored
event order. -/
theorem claim_c5_assemble_concat (s : Session) :
    convertEventsToChainlit s =
      Except.ok ((s.events.map (fun e => eventSteps s.id e)).flatten,
        (s.events.map (fun e => eventElements s.id e)).flatten) := by
  have go : ∀ (evs : List Event) (acc : List StepDict × List ElementDict),
      convertEventsGo s.id evs acc =
        Except.ok (acc.1 ++ (evs.map (fun e => eventSteps s.id e)).flatten,
          acc.2 ++ (evs.map (fun e => eventElements s.id e)).flatten) := by
    intro evs
    induction evs with
    | nil => intro acc; simp [convertEventsGo]
    | cons e rest ih =>
        intro acc
        rw [convertEventsGo, convert_total s.id e]
        show convertEventsGo s.id rest _ = _
        rw [ih]
        simp [eventSteps, eventElements, List.append_assoc]
  simpa [convertEventsToChainlit] using go s.events ([], [])

/-- Claim C8: the `db_url` fallback.  When `DB_URL` is unset the
bracket lookup raises `KeyError` — the claimed fallback never happens —
while an explicitly empty value does fall back to the default sqlite
file.  A concrete set value passes through unchanged. -/
theorem claim_c8_db_url_keyerror :
    resolveDbUrl none = Except.error "KeyError: DB_URL" ∧
    resolveDbUrl (some "") =
      Except.ok "sqlite:///design_team_sessions.db" ∧
    resolveDbUrl (some "postgresql://h/db") =
      Except.ok "postgresql://h/db" :=
  ⟨rfl, rfl, rfl⟩

/-- Event for the C3 pairing scenario: a `function_call` Part
(id `c1`) followed by a `function_response` Part (id `c1`,
response `R`). -/
def c3Event : Event :=
  { id := "e", author := "bot", timestamp := "1.0",
    error_code := none, error_message := none,
    content := some
      { role := some "model",
        parts := some
          [{ text := none,
             function_call := some
               { name := some "f", args := some "{}", id := some "c1" },
             function_response := none },
           { text := none, function_call := none,
             function_response := some
               { id := some "c1", response := some "R" } }] },
    actions := { state_delta := [("s", "1")] },
    custom_metadata := none }

/-- Claim C3: in every event reaching the Part loop, the number of
emitted Steps is the synthetic prefix plus one Step per
`function_call` Part plus the optional trailing text Step —
`function_response` Parts, matched or orphaned, add no Step and never
fail.  Moreover, universally: whenever a `function_response` Part
matches an earlier `function_call` Part of the same event (the call not
shadowed in between, the response not overwritten later), the call Step
at that call's position ends with output = the stringified response
payload and a cleared error flag, its other fields untouched.  The
canonical `c1`/`R` pairing instance is stated as well. -/
theorem claim_c3_function_response_pairing :
    (∀ (sid : String) (e : Event) (c : Content) (ps : List Part)
        (p : List StepDict × List ElementDict),
        pyTruthyOptStr e.error_code = false → e.content = some c →
        c.parts = some ps → ps ≠ [] →
        convertEventToChainlit sid e = Except.ok p →
        p.1.length =
          (if e.actions.state_delta.isEmpty then 1 else 0)
            + ps.countP (fun q => q.function_call.isSome)
            + (if (ps.foldl (processPart sid e) (initState sid e)).text = ""
               then 0 else 1)) ∧
    (∀ (sid : String) (e : Event) (c : Content) (l1 l2 l3 : List Part)
        (pc pr : Part) (fc : FunctionCall) (fr : FunctionResponse)
        (p : List StepDict × List ElementDict),
        pyTruthyOptStr e.error_code = false → e.content = some c →
        c.parts = some (l1 ++ pc :: l2 ++ pr :: l3) →
        pc.function_call = some fc →
        pr.function_response = some fr → fr.id = fc.id →
        (∀ q ∈ l2, ∀ fc', q.function_call = some fc' →
          fc'.id ≠ fc.id) →
        (∀ fc', pr.function_call = some fc' → fc'.id ≠ fc.id) →
        (∀ q ∈ l3, ∀ fr', q.function_response = some fr' →
          fr'.id ≠ fc.id) →
        convertEventToChainlit sid e = Except.ok p →
        p.1[(initSteps sid e).length
            + l1.countP (fun q => q.function_call.isSome)]? =
          some { callStep sid e (l1.length + 1) fc with
                 output := strOfOptPayload fr.response,
                 isError := false }) ∧
    convertEventToChainlit "T" c3Event =
      Except.ok
        ([{ id := "e_1", threadId := "T", parentId := some "e",
            name := "f", type := "tool", input := "{}", output := "R",
            metadata := [], createdAt := "1.0", showInput := true,
            isError := false, feedback := none }],
         []) := by
  refine ⟨?_, ?_, rfl⟩
  · intro sid e c ps p herr hc hps hne hok
    rw [convert_spec sid e c ps herr hc hps hne] at hok
    injection hok with h
    subst h
    show (partsResult sid e c ps).length = _
    have hlen := foldl_processPart_length sid e ps (initState sid e)
    have hinit : (initState sid e).steps.length =
        if e.actions.state_delta.isEmpty then 1 else 0 := by
      simp only [initState, initSteps]
      split <;> simp
    by_cases htext :
        (ps.foldl (processPart sid e) (initState sid e)).text = ""
    · simp [partsResult, htext, hlen, hinit]
    · simp [partsResult, htext, hlen, hinit]
  · intro sid e c l1 l2 l3 pc pr fc fr p herr hc hps hpc hpr hid hl2
      hprc hl3 hok
    have hne : (l1 ++ pc :: l2 ++ pr :: l3) ≠ ([] : List Part) := by
      simp
    rw [convert_spec sid e c _ herr hc hps hne] at hok
    injection hok with h
    subst h
    have hb0 : LookupBound (initState sid e) := by
      intro kv hkv
      simp [initState] at hkv
    have hbA : LookupBound
        (l1.foldl (processPart sid e) (initState sid e)) :=
      foldl_lookupBound sid e l1 _ hb0
    have lenA :
        (l1.foldl (processPart sid e) (initState sid e)).steps.length =
          (initSteps sid e).length
            + l1.countP (fun q => q.function_call.isSome) :=
      foldl_processPart_length sid e l1 _
    have pIdA :
        (l1.foldl (processPart sid e) (initState sid e)).pId =
          l1.length := by
      have := foldl_processPart_pId sid e l1 (initState sid e)
      simpa [initState] using this
    have hTrack := trackInv_establish sid e
      (l1.foldl (processPart sid e) (initState sid e)) pc fc hbA hpc
    have hTrack2 := foldl_trackInv sid e l2 _ hl2 hTrack
    have hFroz := respUpdate sid e _ pr hTrack2 hpr hid hprc
    have hFroz2 := foldl_frozenW sid e l3 _ hl3 hFroz
    have hfold : ((l1 ++ pc :: l2 ++ pr :: l3).foldl
          (processPart sid e) (initState sid e)) =
        l3.foldl (processPart sid e)
          (processPart sid e
            (l2.foldl (processPart sid e)
              (processPart sid e
                (l1.foldl (processPart sid e) (initState sid e)) pc))
            pr) := by
      simp [List.foldl_append]
    have hstep := hFroz2.1
    have hfinal := partsResult_getElem? sid e c
      (l1 ++ pc :: l2 ++ pr :: l3)
      (l1.foldl (processPart sid e) (initState sid e)).steps.length
      _ (by rw [hfold]; exact hstep)
    rw [← lenA, ← pIdA]
    exact hfinal

/-- Witness for the universal conjuncts of C3 at the concrete pairing
scenario: the count formula and the in-place update, instantiated at
`c3Event` decomposed as `[] ++ pc :: [] ++ pr :: []`. -/
theorem claim_c3_witness :
    ((([{ id := "e_1", threadId := "T", parentId := some "e",
          name := "f", type := "tool", input := "{}", output := "R",
          metadata := [], createdAt := "1.0", showInput := true,
          isError := false, feedback := none }],
       ([] : List ElementDict)) :
        List StepDict × List ElementDict).1.length =
      (if c3Event.actions.state_delta.isEmpty then 1 else 0)
        + ((c3Event.content.get rfl).parts.get rfl).countP
            (fun q => q.function_call.isSome)
        + (if (((c3Event.content.get rfl).parts.get rfl).foldl
              (processPart "T" c3Event) (initState "T" c3Event)).text = ""
           then 0 else 1)) ∧
    (([{ id := "e_1", threadId := "T", parentId := some "e",
         name := "f", type := "tool", input := "{}", output := "R",
         metadata := [], createdAt := "1.0", showInput := true,
         isError := false, feedback := none }],
      ([] : List ElementDict)) :
        List StepDict × List ElementDict).1[(initSteps "T" c3Event).length
        + List.countP (fun q => q.function_call.isSome)
            ([] : List Part)]? =
      some { callStep "T" c3Event (List.length ([] : List Part) + 1)
               { name := some "f", args := some "{}", id := some "c1" }
             with
             output := strOfOptPayload (some "R"),
             isError := false } := by
  constructor
  · exact claim_c3_function_response_pairing.1 "T" c3Event
      (c3Event.content.get rfl) ((c3Event.content.get rfl).parts.get rfl)
      _ rfl rfl rfl (by decide) rfl
  · exact claim_c3_function_response_pairing.2.1 "T" c3Event
      { role := some "model",
        parts := some
          [{ text := none,
             function_call := some
               { name := some "f", args := some "{}", id := some "c1" },
             function_response := none },
           { text := none, function_call := none,
             function_response := some
               { id := some "c1", response := some "R" } }] }
      [] [] []
      { text := none,
        function_call := some
          { name := some "f", args := some "{}", id := some "c1" },
        function_response := none }
      { text := none, function_call := none,
        function_response := some
          { id := some "c1", response := some "R" } }
      { name := some "f", args := some "{}", id := some "c1" }
      { id := some "c1", response := some "R" }
      _ rfl rfl rfl rfl rfl rfl
      (by intro q hq; cases hq)
      (by intro fc' h; cases h)
      (by intro q hq; cases hq)
      rfl

/-- Counterexample to claim C6: an event with no error code and a falsy
`state_delta` but absent content yields no Steps at all — the claimed
leading synthetic Step requires content with a non-empty Part list. -/
def c6Event : Event :=
  { id := "e", author := "bot", timestamp := "1.0",
    error_code := none, error_message := none, content := none,
    actions := { state_delta := [] }, custom_metadata := none }

/-- Claim C6 fails as stated: `c6Event` has no error code and a falsy
`state_delta`, yet normalization emits no Step whatsoever. -/
theorem claim_c6_counterexample :
    c6Event.error_code = none ∧ c6Event.actions.state_delta = [] ∧
    convertEventToChainlit "t" c6Event = Except.ok ([], []) :=
  ⟨rfl, rfl, rfl⟩

/-- Claim C6 (amended: the event must also carry content with a
non-empty Part list): the first emitted Step is the synthetic
state-update Step — id = event id + `"_stupd"`, kind `system_message`,
output the fixed placeholder, parent = the event id,
`showInput = false` — ahead of all Part-derived Steps. -/
theorem claim_c6_state_delta_step (sid : String) (e : Event)
    (c : Content) (ps : List Part) (p : List StepDict × List ElementDict)
    (herr : e.error_code = none) (hc : e.content = some c)
    (hps : c.parts = some ps) (hne : ps ≠ [])
    (hsd : e.actions.state_delta = [])
    (hok : convertEventToChainlit sid e = Except.ok p) :
    p.1.head? = some
      { id := e.id ++ "_stupd", threadId := sid, parentId := some e.id,
        name := e.author, type := "system_message", input := "",
        output := "*State updated.*",
        metadata := e.custom_metadata.getD [], createdAt := e.timestamp,
        showInput := false, isError := false, feedback := none } := by
  have herr' : pyTruthyOptStr e.error_code = false := by
    simp [pyTruthyOptStr, herr]
  rw [convert_spec sid e c ps herr' hc hps hne] at hok
  injection hok with h
  subst h
  have hinit : HeadInv (stateUpdatedStep sid e) (initState sid e) := by
    refine ⟨?_, ?_⟩
    · simp [initState, initSteps, hsd]
    · intro kv hkv
      simp [initState] at hkv
  obtain ⟨hhead, -⟩ := foldl_processPart_headInv sid e
    (stateUpdatedStep sid e) ps (initState sid e) hinit
  show (partsResult sid e c ps).head? = _
  by_cases htext :
      (ps.foldl (processPart sid e) (initState sid e)).text = ""
  · simp only [partsResult, htext, if_true]
    exact hhead
  · simp only [partsResult, htext, if_false]
    exact head?_append_left hhead

/-- Event for the C6 witness: no error code, empty `state_delta`,
content with one text Part. -/
def c6wEvent : Event :=
  { id := "e", author := "bot", timestamp := "1.0",
    error_code := none, error_message := none,
    content := some
      { role := some "user",
        parts := some
          [{ text := some "x", function_call := none,
             function_response := none }] },
    actions := { state_delta := [] }, custom_metadata := none }

/-- Witness for C6 at a concrete event. -/
theorem claim_c6_witness :
    (([{ id := "e_stupd", threadId := "t", parentId := some "e",
         name := "bot", type := "system_message", input := "",
         output := "*State updated.*", metadata := [],
         createdAt := "1.0", showInput := false, isError := false,
         feedback := none },
       { id := "e", threadId := "t", parentId := none, name := "bot",
         type := "user_message", input := "", output := "x",
         metadata := [], createdAt := "1.0", showInput := false,
         isError := false, feedback := none }],
      ([] : List ElementDict)) :
        List StepDict × List ElementDict).1.head? = some
      { id := "e" ++ "_stupd", threadId := "t", parentId := some "e",
        name := "bot", type := "system_message", input := "",
        output := "*State updated.*", metadata := [],
        createdAt := "1.0", showInput := false, isError := false,
        feedback := none } :=
  claim_c6_state_delta_step "t" c6wEvent
    { role := some "user",
      parts := some
        [{ text := some "x", function_call := none,
           function_response := none }] }
    [{ text := some "x", function_call := none,
       function_response := none }]
    _ rfl rfl rfl (by decide) rfl rfl

/-- Claim C4: a returned page holds at most `first` summaries ordered
by creation time descending; `has_next_page` is true iff the
`first + 1`-row fetch actually yielded `first + 1` rows (the extra row
trimmed); `start_cursor`/`end_cursor` are the first/last returned
thread ids, or none on an empty page. -/
theorem claim_c4_pagination (pag : Pagination) (filters : ThreadFilter)
    (table : List SessionRow) (page : PaginatedResponse)
    (hok : list_threads pag filters table = Except.ok page) :
    page.data.length ≤ pag.first ∧
    page.data.Pairwise (fun a b => b.createdAt ≤ a.createdAt) ∧
    (page.pageInfo.hasNextPage = true ↔
      (threadsQuery pag filters table).length = pag.first + 1) ∧
    page.pageInfo.startCursor = (page.data.head?).map (fun t => t.id) ∧
    page.pageInfo.endCursor = (page.data.getLast?).map (fun t => t.id) := by
  have hR : (threadsQuery pag filters table).length ≤ pag.first + 1 := by
    unfold threadsQuery
    exact List.length_take_le _ _
  unfold list_threads at hok
  split at hok
  · simp at hok
  · injection hok with h
    subst h
    refine ⟨?_, ?_, ?_, ?_, ?_⟩
    · simp only [List.length_map]
      unfold trimmedRows hasNext
      split
      · rename_i hn
        rw [List.length_dropLast]
        simp only [decide_eq_true_eq] at hn
        omega
      · rename_i hn
        simp only [decide_eq_true_eq] at hn
        omega
    · have hsor := sorted_sortDesc (cursorRows pag filters table)
      have h1 : (threadsQuery pag filters table).Pairwise
          (fun a b => b.create_time ≤ a.create_time) :=
        hsor.sublist (List.take_sublist _ _)
      have h2 : (trimmedRows pag filters table).Pairwise
          (fun a b => b.create_time ≤ a.create_time) := by
        unfold trimmedRows
        split
        · exact h1.sublist (List.dropLast_sublist _)
        · exact h1
      exact List.pairwise_map.mpr h2
    · unfold hasNext
      simp only [decide_eq_true_eq]
      omega
    · cases hD : (trimmedRows pag filters table).map rowToThreadDict with
      | nil => simp [hD]
      | cons t ts => simp [hD]
    · rfl

/-- Table for the C4 witness. -/
def c4Table : List SessionRow :=
  [{ id := "a", user_id := some "u", create_time := 1, state := none },
   { id := "b", user_id := some "u", create_time := 2, state := none }]

/-- Page returned for the C4 witness request (page size 1 over
`c4Table`): the newer session `b`, with a next page. -/
def c4Page : PaginatedResponse :=
  { pageInfo :=
      { hasNextPage := true, startCursor := some "b",
        endCursor := some "b" }
    data :=
      [{ id := "b", createdAt := 2, name := "b", userId := some "u",
         userIdentifier := some "u", metadata := "{}", steps := [],
         elements := [], tags := [] }] }

/-- Witness for C4 at a concrete request. -/
theorem claim_c4_witness :
    c4Page.data.length ≤ 1 ∧
    c4Page.data.Pairwise (fun a b => b.createdAt ≤ a.createdAt) ∧
    (c4Page.pageInfo.hasNextPage = true ↔
      (threadsQuery ⟨1, none⟩ ⟨none, none⟩ c4Table).length = 1 + 1) ∧
    c4Page.pageInfo.startCursor =
      (c4Page.data.head?).map (fun t => t.id) ∧
    c4Page.pageInfo.endCursor =
      (c4Page.data.getLast?).map (fun t => t.id) :=
  claim_c4_pagination ⟨1, none⟩ ⟨none, none⟩ c4Table c4Page rfl

/-- Claim C7: `get_thread_author` returns the owning user identifier of
the first matching session row when one exists, and fails with a
distinguishable NotFound-style error — not a storage failure and not a
silent none — when no session row matches. -/
theorem claim_c7_get_thread_author (tid : String)
    (table : List SessionRow) :
    (table.filter (fun r => r.id == tid) = [] →
      get_thread_author tid table =
        Except.error (DBFailure.notFound
          ("Thread " ++ tid ++ " not found"))) ∧
    (∀ (r : SessionRow) (rest : List SessionRow),
      table.filter (fun r' => r'.id == tid) = r :: rest →
      get_thread_author tid table = Except.ok r.user_id) := by
  constructor
  · intro h
    unfold get_thread_author
    rw [h]
  · intro r rest h
    unfold get_thread_author
    rw [h]

/-- Witness for C7: a missing thread id fails NotFound, a present one
returns its owner. -/
theorem claim_c7_witness :
    get_thread_author "x" [] =
      Except.error (DBFailure.notFound "Thread x not found") ∧
    get_thread_author "a"
      [{ id := "a", user_id := some "u", create_time := 1,
         state := none }] = Except.ok (some "u") :=
  ⟨(claim_c7_get_thread_author "x" []).1 rfl,
   (claim_c7_get_thread_author "a"
      [{ id := "a", user_id := some "u", create_time := 1,
         state := none }]).2
     { id := "a", user_id := some "u", create_time := 1, state := none }
     [] rfl⟩

/-- Table for the C9 counterexample. -/
def c9Table : List SessionRow :=
  [{ id := "a", user_id := some "u", create_time := 5, state := none }]

/-- Claim C9 fails as stated: the cursor `""` matches no session row,
yet the cursor clause is skipped (Python truthiness) and the full first
page is returned instead of an empty one. -/
theorem claim_c9_counterexample :
    ("" ∉ c9Table.map (fun r => r.id)) ∧
    list_threads ⟨10, some ""⟩ ⟨none, none⟩ c9Table =
      Except.ok
        { pageInfo :=
            { hasNextPage := false, startCursor := some "a",
              endCursor := some "a" }
          data :=
            [{ id := "a", createdAt := 5, name := "a",
               userId := some "u", userIdentifier := some "u",
               metadata := "{}", steps := [], elements := [],
               tags := [] }] } :=
  ⟨by decide, rfl⟩

/-- Claim C9 (amended: the cursor must be a non-empty string; an
empty-string cursor is treated as absent): a cursor matching no
session row yields an empty page — no summaries, no next page, both
cursors none — rather than an ignored cursor or a failure. -/
theorem claim_c9_unknown_cursor (first : Nat) (c : String)
    (filters : ThreadFilter) (table : List SessionRow)
    (page : PaginatedResponse) (hc : c ≠ "")
    (hmiss : ∀ r ∈ table, r.id ≠ c)
    (hok : list_threads ⟨first, some c⟩ filters table = Except.ok page) :
    page.data = [] ∧ page.pageInfo.hasNextPage = false ∧
    page.pageInfo.startCursor = none ∧
    page.pageInfo.endCursor = none := by
  have hfind : table.find? (fun r => r.id == c) = none := by
    rw [List.find?_eq_none]
    intro r hr
    simpa using hmiss r hr
  have hq : threadsQuery ⟨first, some c⟩ filters table = [] := by
    unfold threadsQuery cursorRows
    simp [hc, hfind, sortDesc]
  have ht : trimmedRows ⟨first, some c⟩ filters table = [] := by
    unfold trimmedRows hasNext
    rw [hq]
    simp
  unfold list_threads at hok
  split at hok
  · simp at hok
  · injection hok with h
    subst h
    simp [ht, hq, hasNext]

/-- Table for the C9 witness. -/
def c9wTable : List SessionRow :=
  [{ id := "a", user_id := some "u", create_time := 1, state := none },
   { id := "b", user_id := some "u", create_time := 2, state := none }]

/-- Witness for C9: cursor `zz` over a two-row table. -/
theorem claim_c9_witness :
    (({ pageInfo :=
          { hasNextPage := false, startCursor := none,
            endCursor := none }
        data := [] } : PaginatedResponse).data = []) ∧
    ({ pageInfo :=
         { hasNextPage := false, startCursor := none,
           endCursor := none }
       data := [] } : PaginatedResponse).pageInfo.hasNextPage = false ∧
    ({ pageInfo :=
         { hasNextPage := false, startCursor := none,
           endCursor := none }
       data := [] } : PaginatedResponse).pageInfo.startCursor = none ∧
    ({ pageInfo :=
         { hasNextPage := false, startCursor := none,
           endCursor := none }
       data := [] } : PaginatedResponse).pageInfo.endCursor = none :=
  claim_c9_unknown_cursor 2 "zz" ⟨none, none⟩ c9wTable _ (by decide)
    (by decide) rfl

/-- Scenario for the C10 witness: two `function_call` Parts with the
same call identifier `c1`, then one `function_response` for `c1`. -/
def c10Event : Event :=
  { id := "e", author := "bot", timestamp := "1.0",
    error_code := none, error_message := none,
    content := some
      { role := some "model",
        parts := some
          [{ text := none,
             function_call := some
               { name := some "f", args := some "A1", id := some "c1" },
             function_response := none },
           { text := none,
             function_call := some
               { name := some "g", args := some "A2", id := some "c1" },
             function_response := none },
           { text := none, function_call := none,
             function_response := some
               { id := some "c1", response := some "R" } }] },
    actions := { state_delta := [("s", "1")] },
    custom_metadata := none }

/-- Claim C10, universally: in any event whose Part list contains two
`function_call` Parts with the same call identifier and then a
`function_response` for that identifier, the same-event lookup retains
the most recently emitted call Step, so the response updates only the
later call Step — output becomes the stringified payload, error flag
cleared — while the earlier call Step survives untouched, keeping its
`"(ERROR)"` placeholder; both Steps sit at their part-order positions.
The side conditions pin the scenario down: no interfering call with
that identifier between the second call and the response, and no other
response for that identifier reaching either tracked Step. -/
theorem claim_c10_duplicate_call_ids :
    ∀ (sid : String) (e : Event) (c : Content)
      (l1 l2 l3 l4 : List Part) (pc1 pc2 pr : Part)
      (fc1 fc2 : FunctionCall) (fr : FunctionResponse)
      (p : List StepDict × List ElementDict),
      pyTruthyOptStr e.error_code = false → e.content = some c →
      c.parts = some (l1 ++ pc1 :: l2 ++ pc2 :: l3 ++ pr :: l4) →
      pc1.function_call = some fc1 → pc2.function_call = some fc2 →
      fc2.id = fc1.id →
      pr.function_response = some fr → fr.id = fc1.id →
      (∀ fr', pc1.function_response = some fr' → fr'.id ≠ fc1.id) →
      (∀ q ∈ l2, ∀ fc', q.function_call = some fc' →
        fc'.id ≠ fc1.id) →
      (∀ q ∈ l2, ∀ fr', q.function_response = some fr' →
        fr'.id ≠ fc1.id) →
      (∀ q ∈ l3, ∀ fc', q.function_call = some fc' →
        fc'.id ≠ fc1.id) →
      (∀ fc', pr.function_call = some fc' → fc'.id ≠ fc1.id) →
      (∀ q ∈ l4, ∀ fr', q.function_response = some fr' →
        fr'.id ≠ fc1.id) →
      convertEventToChainlit sid e = Except.ok p →
      p.1[(initSteps sid e).length
          + l1.countP (fun q => q.function_call.isSome)]? =
        some (callStep sid e (l1.length + 1) fc1) ∧
      p.1[(initSteps sid e).length
          + l1.countP (fun q => q.function_call.isSome) + 1
          + l2.countP (fun q => q.function_call.isSome)]? =
        some { callStep sid e (l1.length + 1 + l2.length + 1) fc2 with
               output := strOfOptPayload fr.response,
               isError := false } := by
  intro sid e c l1 l2 l3 l4 pc1 pc2 pr fc1 fc2 fr p herr hc hps hpc1
    hpc2 hk2 hpr hid hpc1resp hl2call hl2resp hl3call hprcall hl4resp
    hok
  have hne : (l1 ++ pc1 :: l2 ++ pc2 :: l3 ++ pr :: l4) ≠
      ([] : List Part) := by simp
  rw [convert_spec sid e c _ herr hc hps hne] at hok
  injection hok with h
  subst h
  have hb0 : LookupBound (initState sid e) := by
    intro kv hkv
    simp [initState] at hkv
  have hbA : LookupBound
      (l1.foldl (processPart sid e) (initState sid e)) :=
    foldl_lookupBound sid e l1 _ hb0
  have hbB : LookupBound (processPart sid e
      (l1.foldl (processPart sid e) (initState sid e)) pc1) :=
    processPart_lookupBound sid e _ pc1 hbA
  have hbC : LookupBound (l2.foldl (processPart sid e)
      (processPart sid e
        (l1.foldl (processPart sid e) (initState sid e)) pc1)) :=
    foldl_lookupBound sid e l2 _ hbB
  have lenA :
      (l1.foldl (processPart sid e) (initState sid e)).steps.length =
        (initSteps sid e).length
          + l1.countP (fun q => q.function_call.isSome) :=
    foldl_processPart_length sid e l1 _
  have pIdA :
      (l1.foldl (processPart sid e) (initState sid e)).pId =
        l1.length := by
    have := foldl_processPart_pId sid e l1 (initState sid e)
    simpa [initState] using this
  have lenB : (processPart sid e
      (l1.foldl (processPart sid e) (initState sid e)) pc1).steps.length
      = (l1.foldl (processPart sid e) (initState sid e)).steps.length
        + 1 := by
    rw [processPart_steps_length]
    simp [hpc1]
  have pIdB : (processPart sid e
      (l1.foldl (processPart sid e) (initState sid e)) pc1).pId =
      (l1.foldl (processPart sid e) (initState sid e)).pId + 1 :=
    processPart_pId sid e _ pc1
  have lenC : (l2.foldl (processPart sid e)
      (processPart sid e
        (l1.foldl (processPart sid e) (initState sid e)) pc1)).steps.length
      = (processPart sid e
          (l1.foldl (processPart sid e) (initState sid e)) pc1).steps.length
        + l2.countP (fun q => q.function_call.isSome) :=
    foldl_processPart_length sid e l2 _
  have pIdC : (l2.foldl (processPart sid e)
      (processPart sid e
        (l1.foldl (processPart sid e) (initState sid e)) pc1)).pId =
      (processPart sid e
        (l1.foldl (processPart sid e) (initState sid e)) pc1).pId
        + l2.length :=
    foldl_processPart_pId sid e l2 _
  have hEx := exactInv_establish sid e
    (l1.foldl (processPart sid e) (initState sid e)) pc1 fc1 hbA hpc1
    hpc1resp
  have hEx2 := foldl_exactInv sid e l2 _ hl2call hl2resp hEx
  have hS := frozenS_establish sid e _ pc2 fc2 hEx2 hpc2 hk2
  have hT := trackInv_establish sid e
    (l2.foldl (processPart sid e)
      (processPart sid e
        (l1.foldl (processPart sid e) (initState sid e)) pc1)) pc2 fc2
    hbC hpc2
  rw [hk2] at hT
  have hS2 := foldl_frozenS sid e l3 _ hS
  have hT2 := foldl_trackInv sid e l3 _ hl3call hT
  have hS3 := processPart_frozenS sid e _ pr hS2
  have hU := respUpdate sid e _ pr hT2 hpr hid hprcall
  have hS4 := foldl_frozenS sid e l4 _ hS3
  have hU2 := foldl_frozenW sid e l4 _ hl4resp hU
  have hfold : ((l1 ++ pc1 :: l2 ++ pc2 :: l3 ++ pr :: l4).foldl
        (processPart sid e) (initState sid e)) =
      l4.foldl (processPart sid e)
        (processPart sid e
          (l3.foldl (processPart sid e)
            (processPart sid e
              (l2.foldl (processPart sid e)
                (processPart sid e
                  (l1.foldl (processPart sid e) (initState sid e))
                  pc1))
              pc2))
          pr) := by
    simp [List.foldl_append]
  have hfinal1 := partsResult_getElem? sid e c
    (l1 ++ pc1 :: l2 ++ pc2 :: l3 ++ pr :: l4)
    (l1.foldl (processPart sid e) (initState sid e)).steps.length
    _ (by rw [hfold]; exact hS4.1.1)
  have hfinal2 := partsResult_getElem? sid e c
    (l1 ++ pc1 :: l2 ++ pc2 :: l3 ++ pr :: l4)
    (l2.foldl (processPart sid e)
      (processPart sid e
        (l1.foldl (processPart sid e) (initState sid e)) pc1)).steps.length
    _ (by rw [hfold]; exact hU2.1)
  constructor
  · rw [← lenA, ← pIdA]
    exact hfinal1
  · have hidx2 : (initSteps sid e).length
        + l1.countP (fun q => q.function_call.isSome) + 1
        + l2.countP (fun q => q.function_call.isSome) =
        (l2.foldl (processPart sid e)
          (processPart sid e
            (l1.foldl (processPart sid e) (initState sid e))
            pc1)).steps.length := by
      rw [lenC, lenB, lenA]
    have hpid2 : l1.length + 1 + l2.length + 1 =
        (l2.foldl (processPart sid e)
          (processPart sid e
            (l1.foldl (processPart sid e) (initState sid e))
            pc1)).pId + 1 := by
      rw [pIdC, pIdB, pIdA]
    rw [hidx2, hpid2]
    exact hfinal2

/-- Witness for C10 at the concrete duplicate-id scenario: the
earlier call Step keeps the `"(ERROR)"` placeholder, the later one
carries output `"R"` with the error flag cleared, at positions 0
and 1. -/
theorem claim_c10_witness :
    (([{ id := "e_1", threadId := "T", parentId := some "e",
         name := "f", type := "tool", input := "A1",
         output := "(ERROR)", metadata := [], createdAt := "1.0",
         showInput := true, isError := false, feedback := none },
       { id := "e_2", threadId := "T", parentId := some "e",
         name := "g", type := "tool", input := "A2", output := "R",
         metadata := [], createdAt := "1.0", showInput := true,
         isError := false, feedback := none }],
      ([] : List ElementDict)) :
        List StepDict × List ElementDict).1[(initSteps "T" c10Event).length
        + List.countP (fun q => q.function_call.isSome)
            ([] : List Part)]? =
      some (callStep "T" c10Event (List.length ([] : List Part) + 1)
        { name := some "f", args := some "A1", id := some "c1" }) ∧
    (([{ id := "e_1", threadId := "T", parentId := some "e",
         name := "f", type := "tool", input := "A1",
         output := "(ERROR)", metadata := [], createdAt := "1.0",
         showInput := true, isError := false, feedback := none },
       { id := "e_2", threadId := "T", parentId := some "e",
         name := "g", type := "tool", input := "A2", output := "R",
         metadata := [], createdAt := "1.0", showInput := true,
         isError := false, feedback := none }],
      ([] : List ElementDict)) :
        List StepDict × List ElementDict).1[(initSteps "T" c10Event).length
        + List.countP (fun q => q.function_call.isSome)
            ([] : List Part) + 1
        + List.countP (fun q => q.function_call.isSome)
            ([] : List Part)]? =
      some { callStep "T" c10Event
               (List.length ([] : List Part) + 1
                 + List.length ([] : List Part) + 1)
               { name := some "g", args := some "A2", id := some "c1" }
             with
             output := strOfOptPayload (some "R"),
             isError := false } :=
  claim_c10_duplicate_call_ids "T" c10Event
    { role := some "model",
      parts := some
        [{ text := none,
           function_call := some
             { name := some "f", args := some "A1", id := some "c1" },
           function_response := none },
         { text := none,
           function_call := some
             { name := some "g", args := some "A2", id := some "c1" },
           function_response := none },
         { text := none, function_call := none,
           function_response := some
             { id := some "c1", response := some "R" } }] }
    [] [] [] []
    { text := none,
      function_call := some
        { name := some "f", args := some "A1", id := some "c1" },
      function_response := none }
    { text := none,
      function_call := some
        { name := some "g", args := some "A2", id := some "c1" },
      function_response := none }
    { text := none, function_call := none,
      function_response := some
        { id := some "c1", response := some "R" } }
    { name := some "f", args := some "A1", id := some "c1" }
    { name := some "g", args := some "A2", id := some "c1" }
    { id := some "c1", response := some "R" }
    _ rfl rfl rfl rfl rfl rfl rfl rfl
    (by intro fr' h; simp at h)
    (by intro q hq; cases hq)
    (by intro q hq; cases hq)
    (by intro q hq; cases hq)
    (by intro fc' h; simp at h)
    (by intro q hq; cases hq)
    rfl

end DesignTeam
